import Mathlib

/-!
Verification of the Learning Progress & Gamification Engine of the
GO learning platform backend (`backend/server.py`, `backend/database.py`,
`backend/models.py`).

The engine's state is a document database (`DB` below) holding users,
lessons, quizzes, lesson-progress records, quiz attempts, achievements and
user-achievement records.  The operations modelled are the endpoint bodies
`start_lesson`, `complete_lesson`, `start_quiz_attempt` and the internal
pass `check_achievements` from `server.py`.  Timestamps (`datetime.utcnow()`)
are modelled as `Nat` parameters threaded by the caller; freshly generated
uuids are likewise parameters.  MongoDB's `update_one` with `$set`/upsert is
modelled exactly: `modified_count` is 1 precisely when the applied `$set`
changed the stored document, and an upsert builds the new document from the
filter's equality fields plus the `$set` fields only (so no pydantic
defaults apply to it).  The unique index on
`(user_id, achievement_id)` (`database.py:56`) makes a duplicate
`insert_one` into `user_achievements` raise; this is modelled as a
`storageConflict` error that, as in the Python code (which has no
`try`/`except` around the loop), aborts the rest of the pass.

Fields of the pydantic models never read or written by the modelled
operations (emails, titles, descriptions, icons, `options`, `explanation`,
`time_spent`, `notes`, `level`, `streak_days`, ...) are omitted from the
structures; every field that any modelled operation touches is present.
-/

/-- Error taxonomy of the modelled endpoints: `notFound` is the HTTP 404
raised for a missing lesson/quiz, `storageConflict` is the duplicate-key
error raised by an `insert_one` that loses against a unique index. -/
inductive Err
  | notFound
  | storageConflict
deriving DecidableEq, Repr

/-- `models.py` `QuestionType`. -/
inductive QuestionType
  | multiple_choice
  | true_false
  | code_completion
  | free_text
deriving DecidableEq, Repr

/-- `models.py` `QuizQuestion` (fields used by the modelled operations). -/
structure QuizQuestion where
  question : String
  question_type : QuestionType
  correct_answer : String
  points : Nat
deriving DecidableEq, Repr

/-- `models.py` `User` (fields used by the engine: identity and point
balance). -/
structure User where
  id : String
  points : Int
deriving DecidableEq, Repr

/-- `models.py` `Lesson` (fields read by the modelled operations). -/
structure Lesson where
  id : String
  points_reward : Int
deriving DecidableEq, Repr

/-- `models.py` `Quiz` (fields read by the modelled operations). -/
structure Quiz where
  id : String
  lesson_id : String
  questions : List QuizQuestion
  passing_score : Nat
  is_active : Bool
  max_points : Nat
deriving DecidableEq, Repr

/-- `models.py` `LessonProgress`.  `started_at` is an `Option` because a
document upserted by `complete_lesson` contains only the filter fields and
the `$set` fields, hence no `started_at` at all. -/
structure LessonProgress where
  user_id : String
  lesson_id : String
  started_at : Option Nat
  completed_at : Option Nat
  is_completed : Bool
deriving DecidableEq, Repr

/-- `models.py` `QuizAttempt`.  The float fields `score`/`max_score` are
modelled as rationals. -/
structure QuizAttempt where
  id : String
  user_id : String
  quiz_id : String
  answers : List (String × String)
  score : Rat
  max_score : Rat
  started_at : Nat
  completed_at : Option Nat
  is_completed : Bool
deriving DecidableEq, Repr

/-- `models.py` `Achievement`.  The `criteria` dict (metric name → required
threshold) is modelled as an association list. -/
structure Achievement where
  id : String
  points_reward : Int
  criteria : List (String × Int)
  is_active : Bool
deriving DecidableEq, Repr

/-- `models.py` `UserAchievement`. -/
structure UserAchievement where
  user_id : String
  achievement_id : String
  earned_at : Nat
  progress : Rat
deriving DecidableEq, Repr

/-- The document database of `database.py`, one field per collection used
by the engine. -/
structure DB where
  users : List User
  lessons : List Lesson
  quizzes : List Quiz
  lesson_progress : List LessonProgress
  quiz_attempts : List QuizAttempt
  achievements : List Achievement
  user_achievements : List UserAchievement
deriving DecidableEq, Repr

/-- The empty database. -/
def DB.empty : DB := ⟨[], [], [], [], [], [], []⟩

/-- Apply `f` to the first element satisfying `p` (MongoDB `update_one`
touches a single matching document). -/
def replaceFirst (p : α → Bool) (f : α → α) : List α → List α
  | [] => []
  | x :: xs => if p x then f x :: xs else x :: replaceFirst p f xs

/-- The point balance of user `uid` (`find_one` on the unique `id` index;
0 if the user document is absent). -/
def pointsOf (uid : String) (users : List User) : Int :=
  match users.find? (fun u => u.id == uid) with
  | some u => u.points
  | none => 0

/-- `update_one({"id": uid}, {"$inc": {"points": r}})` from
`server.py:452-455` and `server.py:505-508`. -/
def incUserPoints (uid : String) (r : Int) (users : List User) : List User :=
  replaceFirst (fun u => u.id == uid) (fun u => { u with points := u.points + r }) users

/-- Result of a MongoDB `update_one`: whether a document was upserted and
how many documents were actually changed. -/
structure UpdateResult where
  upserted : Bool
  modified_count : Nat
deriving DecidableEq, Repr

/-- The `$set` document of `server.py:442-445`: mark completed and stamp
`completed_at` with the current time. -/
def setCompleted (now : Nat) (p : LessonProgress) : LessonProgress :=
  { p with is_completed := true, completed_at := some now }

/-- `server.py:439-448`: `update_one` on `(user_id, lesson_id)` with the
`setCompleted` `$set` and `upsert=True`.  `modified_count` is 1 exactly when
the `$set` changed the stored document; an upsert materialises only the
filter fields plus the `$set` fields. -/
def updateProgressSetCompleted (uid lid : String) (now : Nat)
    (ps : List LessonProgress) : List LessonProgress × UpdateResult :=
  match ps.find? (fun p => p.user_id == uid && p.lesson_id == lid) with
  | some p =>
      (replaceFirst (fun q => q.user_id == uid && q.lesson_id == lid) (setCompleted now) ps,
       ⟨false, if setCompleted now p = p then 0 else 1⟩)
  | none =>
      (ps ++ [{ user_id := uid, lesson_id := lid, started_at := none,
                completed_at := some now, is_completed := true }],
       ⟨true, 0⟩)

/-- `server.py:488-492`: the earned decision of one loop iteration of
`check_achievements` — `"lessons_completed" in criteria and
lessons_completed >= criteria["lessons_completed"]`.  No other metric name
is consulted by the code. -/
def earnedByCriteria (lessons_completed : Nat) (criteria : List (String × Int)) : Bool :=
  match criteria.lookup "lessons_completed" with
  | some t => decide (t ≤ (lessons_completed : Int))
  | none => false

/-- `server.py:496-500`: the `UserAchievement` document inserted on award. -/
def mkUserAchievement (uid aid : String) (now : Nat) : UserAchievement :=
  { user_id := uid, achievement_id := aid, earned_at := now, progress := 1 }

/-- Whether a record for the pair `(uid, aid)` is present — the predicate
enforced by the unique index of `database.py:56`. -/
def hasPair (uid aid : String) (l : List UserAchievement) : Bool :=
  l.any (fun x => x.user_id == uid && x.achievement_id == aid)

/-- Number of records for the pair `(uid, aid)`. -/
def pairCount (uid aid : String) (l : List UserAchievement) : Nat :=
  (l.filter (fun x => x.user_id == uid && x.achievement_id == aid)).length

/-- The `for achievement in available_achievements` loop of
`server.py:487-508`.  Each earned candidate is awarded by inserting a
`UserAchievement` record and `$inc`-ing the user's points; an insert that
hits the unique `(user_id, achievement_id)` index raises, and — the Python
loop having no `try`/`except` — the error aborts the remaining iterations.
Returns the final state, the propagated error if any, and the ids of the
achievements granted. -/
def awardLoop (uid : String) (lessons_completed : Nat) (now : Nat) :
    List Achievement → DB → DB × Option Err × List String
  | [], db => (db, none, [])
  | a :: rest, db =>
    if earnedByCriteria lessons_completed a.criteria then
      if hasPair uid a.id db.user_achievements then
        (db, some .storageConflict, [])
      else
        let db1 : DB := { db with
          user_achievements := db.user_achievements ++ [mkUserAchievement uid a.id now],
          users := incUserPoints uid a.points_reward db.users }
        let r := awardLoop uid lessons_completed now rest db1
        (r.1, r.2.1, a.id :: r.2.2)
    else
      awardLoop uid lessons_completed now rest db

/-- `server.py:467-470`: `count_documents` of the user's completed
lesson-progress records. -/
def lessonsCompletedCount (uid : String) (db : DB) : Nat :=
  (db.lesson_progress.filter (fun p => p.user_id == uid && p.is_completed)).length

/-- `server.py:472-475`: `count_documents` of the user's completed quiz
attempts (computed by the code but never consulted by any criteria check). -/
def quizzesCompletedCount (uid : String) (db : DB) : Nat :=
  (db.quiz_attempts.filter (fun a => a.user_id == uid && a.is_completed)).length

/-- `server.py:478-479`: the achievement ids the user already has. -/
def earnedAchievementIds (uid : String) (db : DB) : List String :=
  (db.user_achievements.filter (fun x => x.user_id == uid)).map (·.achievement_id)

/-- `server.py:481-484`: active achievements whose id is not among the
user's earned ids (`$nin`). -/
def availableAchievements (uid : String) (db : DB) : List Achievement :=
  db.achievements.filter
    (fun a => a.is_active && !((earnedAchievementIds uid db).contains a.id))

/-- `server.py:464-508` `check_achievements`: recompute the aggregate
statistics, fetch the not-yet-earned active achievements, and run the award
loop over them. -/
def check_achievements (uid : String) (now : Nat) (db : DB) :
    DB × Option Err × List String :=
  awardLoop uid (lessonsCompletedCount uid db) now (availableAchievements uid db) db

/-- `server.py:427-460` `complete_lesson`: 404 when the lesson is absent;
otherwise upsert the progress record to completed and, when the write
result reports an upsert or a modified document, award the lesson's
`points_reward` and run `check_achievements`.  Returns the state (partial
writes survive an achievement-pass error, as in MongoDB without a
transaction), the error if one propagated, and the achievement ids granted
downstream. -/
def complete_lesson (uid lid : String) (now : Nat) (db : DB) :
    DB × Option Err × List String :=
  match db.lessons.find? (fun l => l.id == lid) with
  | none => (db, some .notFound, [])
  | some lesson =>
    let pr := updateProgressSetCompleted uid lid now db.lesson_progress
    let db1 : DB := { db with lesson_progress := pr.1 }
    if pr.2.upserted || pr.2.modified_count > 0 then
      let db2 : DB := { db1 with users := incUserPoints uid lesson.points_reward db1.users }
      check_achievements uid now db2
    else
      (db1, none, [])

/-- `server.py:400-425` `start_lesson`: 404 when the lesson is absent; a
no-op when a progress record for the pair already exists; otherwise insert
a fresh in-progress record (pydantic defaults: `started_at = utcnow`,
`completed_at = None`, `is_completed = False`). -/
def start_lesson (uid lid : String) (now : Nat) (db : DB) : DB × Option Err :=
  match db.lessons.find? (fun l => l.id == lid) with
  | none => (db, some .notFound)
  | some _ =>
    match db.lesson_progress.find? (fun p => p.user_id == uid && p.lesson_id == lid) with
    | some _ => (db, none)
    | none =>
      ({ db with lesson_progress := db.lesson_progress ++
          [{ user_id := uid, lesson_id := lid, started_at := some now,
             completed_at := none, is_completed := false }] },
       none)

/-- `server.py:392-394`: the loop blanking every question's
`correct_answer` on the value copy `quiz_for_student = Quiz(**quiz)`. -/
def redactQuiz (q : Quiz) : Quiz :=
  { q with questions := q.questions.map (fun qq => { qq with correct_answer := "" }) }

/-- `server.py:372-396` `start_quiz_attempt`: 404 when the quiz is absent;
otherwise unconditionally insert a brand-new attempt (fresh uuid `freshId`,
empty answers, score 0.0, `max_score` copied from the quiz's `max_points`,
not completed).  The redacted copy `quiz_for_student` is built from the
stored document and then discarded: the endpoint returns the attempt
(`response_model=QuizAttempt`), not the questions. -/
def start_quiz_attempt (uid qid freshId : String) (now : Nat) (db : DB) :
    DB × Except Err QuizAttempt :=
  match db.quizzes.find? (fun q => q.id == qid) with
  | none => (db, .error .notFound)
  | some quiz =>
    let attempt : QuizAttempt :=
      { id := freshId, user_id := uid, quiz_id := qid, answers := [],
        score := 0, max_score := (quiz.max_points : Rat), started_at := now,
        completed_at := none, is_completed := false }
    let db1 : DB := { db with quiz_attempts := db.quiz_attempts ++ [attempt] }
    let _quiz_for_student := redactQuiz quiz
    (db1, .ok attempt)

/-- Modelled from the spec: the trim normalisation used for free-text
comparison — leading and trailing whitespace removed. -/
def trimAnswer (s : String) : String :=
  String.mk (((s.data.dropWhile Char.isWhitespace).reverse.dropWhile Char.isWhitespace).reverse)

/-- Modelled from the spec: the repository has no quiz-submission or
scoring code at all (`server.py` defines no submit endpoint and no scorer),
so the Quiz Scorer is taken from spec §4.2.  Per-question comparison is
type-aware: multiple-choice and true/false compare the submitted answer
case-sensitively against `correct_answer`; free-text compares trimmed
string equality; code-completion is treated as free-text.  A missing
submission never matches. -/
def answerMatches (q : QuizQuestion) (sub : Option String) : Bool :=
  match sub with
  | none => false
  | some s =>
    match q.question_type with
    | .multiple_choice => s == q.correct_answer
    | .true_false => s == q.correct_answer
    | .code_completion => trimAnswer s == trimAnswer q.correct_answer
    | .free_text => trimAnswer s == trimAnswer q.correct_answer

/-- Modelled from the spec (§4.2, no scorer exists in the source): walk the
ordered question list, the submitted answer for the question at overall
position `i` being `ans i`; accumulate the score of matched questions and
the total of all question points. -/
def scoreQuizAux (ans : Nat → Option String) : Nat → List QuizQuestion → Nat × Nat
  | _, [] => (0, 0)
  | i, q :: rest =>
    let r := scoreQuizAux ans (i + 1) rest
    ((if answerMatches q (ans i) then q.points else 0) + r.1, q.points + r.2)

/-- Result of the spec-modelled Quiz Scorer: `(score, maxScore, passed)`
plus the degenerate-quiz flag reported when `maxScore` is zero. -/
structure ScoreResult where
  score : Nat
  maxScore : Nat
  passed : Bool
  degenerate : Bool
deriving DecidableEq, Repr

/-- Modelled from the spec: the Quiz Scorer of §4.2 (absent from the
source).  `score` is the sum of points of questions whose comparison
succeeds, `maxScore` the sum of all question points, and
`passed = (score / maxScore * 100) >= passing_score` over the rationals;
when `maxScore` is zero, `passed` is false and the degenerate-quiz
condition is reported instead of dividing. -/
def scoreQuiz (qs : List QuizQuestion) (ans : Nat → Option String)
    (passing_score : Nat) : ScoreResult :=
  let r := scoreQuizAux ans 0 qs
  if r.2 = 0 then
    { score := r.1, maxScore := r.2, passed := false, degenerate := true }
  else
    { score := r.1, maxScore := r.2,
      passed := decide ((passing_score : ℚ) ≤ (r.1 : ℚ) / (r.2 : ℚ) * 100),
      degenerate := false }

/-- The spec's Criteria Evaluator (§4.3), stated for the refinement
comparison of C3: an achievement is earned when every criterion in its
descriptor is satisfied, a criterion `(metric, threshold)` being satisfied
exactly when `stats[metric] >= threshold`; a metric absent from the stats
is unsatisfied (fail closed). -/
def specCriteriaEval (criteria : List (String × Int)) (stats : List (String × Nat)) : Bool :=
  criteria.all (fun c =>
    match stats.lookup c.1 with
    | some v => decide (c.2 ≤ (v : Int))
    | none => false)

/-- The aggregate statistics the code computes for a pass
(`server.py:467-475`), as the stats mapping consumed by the spec's
evaluator. -/
def statsList (lessons_completed quizzes_completed : Nat) : List (String × Nat) :=
  [("lessons_completed", lessons_completed), ("quizzes_completed", quizzes_completed)]

/-- The external events of the engine, for whole-trace claims.  Timestamps
and fresh uuids are carried by the event. -/
inductive Op
  | startLesson (uid lid : String) (now : Nat)
  | completeLesson (uid lid : String) (now : Nat)
  | startQuizAttempt (uid qid freshId : String) (now : Nat)
deriving DecidableEq, Repr

/-- The state after handling one event. -/
def applyOp (op : Op) (db : DB) : DB :=
  match op with
  | .startLesson u l n => (start_lesson u l n db).1
  | .completeLesson u l n => (complete_lesson u l n db).1
  | .startQuizAttempt u q f n => (start_quiz_attempt u q f n db).1

/-- The `(user, achievement)` pairs granted while handling one event. -/
def opGrants (op : Op) (db : DB) : List (String × String) :=
  match op with
  | .completeLesson u l n => ((complete_lesson u l n db).2.2).map (fun aid => (u, aid))
  | _ => []

/-- Run a trace of events, accumulating the grant log. -/
def applyTrace : List Op → DB → DB × List (String × String)
  | [], db => (db, [])
  | op :: rest, db =>
    let r := applyTrace rest (applyOp op db)
    (r.1, opGrants op db ++ r.2)

/-- The state after a trace of events. -/
def applyOps (ops : List Op) (db : DB) : DB := (applyTrace ops db).1

/-- Occurrences of the pair `(uid, aid)` in a grant log. -/
def grantCount (uid aid : String) (log : List (String × String)) : Nat :=
  (log.filter (fun g => g.1 == uid && g.2 == aid)).length

/-! ### Helper lemmas -/

theorem pairCount_append (x y : String) (l l' : List UserAchievement) :
    pairCount x y (l ++ l') = pairCount x y l + pairCount x y l' := by
  simp [pairCount, List.filter_append]

theorem hasPair_append (x y : String) (l l' : List UserAchievement) :
    hasPair x y (l ++ l') = (hasPair x y l || hasPair x y l') := by
  simp [hasPair]

theorem hasPair_eq_false_iff (x y : String) (l : List UserAchievement) :
    hasPair x y l = false ↔ pairCount x y l = 0 := by
  simp [hasPair, pairCount, List.length_eq_zero, List.filter_eq_nil_iff]

theorem awardLoop_user_achievements (u : String) (lc now : Nat)
    (cands : List Achievement) (db : DB) :
    (awardLoop u lc now cands db).1.user_achievements =
      db.user_achievements ++
        ((awardLoop u lc now cands db).2.2).map (fun aid => mkUserAchievement u aid now) := by
  induction cands generalizing db with
  | nil => simp [awardLoop]
  | cons a rest ih =>
    simp only [awardLoop]
    by_cases he : earnedByCriteria lc a.criteria = true
    · by_cases hp : hasPair u a.id db.user_achievements = true
      · simp [he, hp]
      · have hp' : hasPair u a.id db.user_achievements = false := by simpa using hp
        simp [he, hp']
        rw [ih]
        simp
    · simp [he, ih]

theorem awardLoop_frame (u : String) (lc now : Nat)
    (cands : List Achievement) (db : DB) :
    (awardLoop u lc now cands db).1.lessons = db.lessons ∧
    (awardLoop u lc now cands db).1.achievements = db.achievements ∧
    (awardLoop u lc now cands db).1.lesson_progress = db.lesson_progress ∧
    (awardLoop u lc now cands db).1.quizzes = db.quizzes ∧
    (awardLoop u lc now cands db).1.quiz_attempts = db.quiz_attempts := by
  induction cands generalizing db with
  | nil => simp [awardLoop]
  | cons a rest ih =>
    simp only [awardLoop]
    by_cases he : earnedByCriteria lc a.criteria = true
    · by_cases hp : hasPair u a.id db.user_achievements = true
      · simp [he, hp]
      · have hp' : hasPair u a.id db.user_achievements = false := by simpa using hp
        simpa [he, hp'] using ih _
    · simpa [he] using ih _

theorem pairCount_singleton (x y u aid : String) (now : Nat) :
    pairCount x y [mkUserAchievement u aid now] = if u = x ∧ aid = y then 1 else 0 := by
  by_cases h1 : u = x
  · by_cases h2 : aid = y
    · subst h1; subst h2; simp [pairCount, mkUserAchievement]
    · simp [pairCount, mkUserAchievement, h1, h2]
  · simp [pairCount, mkUserAchievement, h1]

theorem awardLoop_pairCount_le (u : String) (lc now : Nat)
    (cands : List Achievement) (db : DB)
    (h : ∀ x y, pairCount x y db.user_achievements ≤ 1) :
    ∀ x y, pairCount x y (awardLoop u lc now cands db).1.user_achievements ≤ 1 := by
  induction cands generalizing db with
  | nil => simpa [awardLoop] using h
  | cons a rest ih =>
    simp only [awardLoop]
    by_cases he : earnedByCriteria lc a.criteria = true
    · by_cases hp : hasPair u a.id db.user_achievements = true
      · simpa [he, hp] using h
      · have hp' : hasPair u a.id db.user_achievements = false := by simpa using hp
        simp only [he, hp']
        simp only [if_true, Bool.false_eq_true, if_false]
        apply ih
        intro x y
        rw [pairCount_append, pairCount_singleton]
        by_cases hm2 : u = x ∧ a.id = y
        · have h0 : pairCount u a.id db.user_achievements = 0 :=
            (hasPair_eq_false_iff _ _ _).mp hp'
          obtain ⟨h1, h2⟩ := hm2
          subst h1; subst h2
          simp [h0]
        · simp only [hm2, if_false]
          have := h x y
          omega
    · simpa [he] using ih _ h

theorem pointsOf_incUserPoints_le (x u : String) (r : Int) (hr : 0 ≤ r) :
    ∀ users : List User, pointsOf x users ≤ pointsOf x (incUserPoints u r users) := by
  intro users
  induction users with
  | nil => simp [incUserPoints, replaceFirst]
  | cons hd t ih =>
    simp only [incUserPoints, replaceFirst]
    by_cases hm : (hd.id == u) = true
    · simp only [hm, if_true]
      by_cases hx : (hd.id == x) = true
      · simp [pointsOf, List.find?_cons, hx]
        omega
      · simp [pointsOf, List.find?_cons, hx]
    · simp only [hm, Bool.false_eq_true, if_false]
      by_cases hx : (hd.id == x) = true
      · simp [pointsOf, List.find?_cons, hx]
      · simpa [pointsOf, List.find?_cons, hx, incUserPoints] using ih

theorem incUserPoints_zero (u : String) :
    ∀ users : List User, incUserPoints u 0 users = users := by
  intro users
  induction users with
  | nil => rfl
  | cons hd t ih =>
    by_cases hm : (hd.id == u) = true
    · simp [incUserPoints, replaceFirst, hm]
    · have hstep : incUserPoints u 0 (hd :: t) = hd :: incUserPoints u 0 t := by
        simp [incUserPoints, replaceFirst, hm]
      rw [hstep, ih]

theorem incUserPoints_incUserPoints (u : String) (r1 r2 : Int) :
    ∀ users : List User,
      incUserPoints u r2 (incUserPoints u r1 users) = incUserPoints u (r1 + r2) users := by
  intro users
  induction users with
  | nil => rfl
  | cons hd t ih =>
    by_cases hm : (hd.id == u) = true
    · simp [incUserPoints, replaceFirst, hm, Int.add_assoc]
    · have hstep : ∀ (s : Int) (tl : List User),
          incUserPoints u s (hd :: tl) = hd :: incUserPoints u s tl := by
        intro s tl; simp [incUserPoints, replaceFirst, hm]
      rw [hstep, hstep, hstep, ih]

theorem awardLoop_points_le (u : String) (lc now : Nat)
    (cands : List Achievement) (db : DB)
    (hr : ∀ a ∈ cands, 0 ≤ a.points_reward) (x : String) :
    pointsOf x db.users ≤ pointsOf x (awardLoop u lc now cands db).1.users := by
  induction cands generalizing db with
  | nil => simp [awardLoop]
  | cons a rest ih =>
    simp only [awardLoop]
    by_cases he : earnedByCriteria lc a.criteria = true
    · by_cases hp : hasPair u a.id db.user_achievements = true
      · simp [he, hp]
      · have hp' : hasPair u a.id db.user_achievements = false := by simpa using hp
        simp only [he, hp', if_true, Bool.false_eq_true, if_false]
        refine le_trans (pointsOf_incUserPoints_le x u a.points_reward
          (hr a (List.mem_cons_self a rest)) db.users) ?_
        exact ih _ (fun b hb => hr b (List.mem_cons_of_mem a hb))
    · simpa [he] using ih _ (fun b hb => hr b (List.mem_cons_of_mem a hb))

/-- The candidates an award pass actually grants: those whose earned
decision is positive. -/
def earnedFilter (lc : Nat) (cands : List Achievement) : List Achievement :=
  cands.filter (fun a => earnedByCriteria lc a.criteria)

/-- Total reward points of a list of achievements. -/
def sumRewards (l : List Achievement) : Int := (l.map (·.points_reward)).sum

theorem awardLoop_no_conflict (u : String) (lc now : Nat) :
    ∀ (cands : List Achievement) (db : DB),
      (cands.map (·.id)).Nodup →
      (∀ a ∈ cands, hasPair u a.id db.user_achievements = false) →
      awardLoop u lc now cands db =
        ({ db with
            user_achievements := db.user_achievements ++
              (earnedFilter lc cands).map (fun a => mkUserAchievement u a.id now),
            users := incUserPoints u (sumRewards (earnedFilter lc cands)) db.users },
         none, (earnedFilter lc cands).map (·.id)) := by
  intro cands
  induction cands with
  | nil =>
    intro db _ _
    simp [awardLoop, earnedFilter, sumRewards, incUserPoints_zero]
  | cons a rest ih =>
    intro db hnd habs
    have hnd0 : a.id ∉ rest.map (·.id) ∧ (rest.map (·.id)).Nodup :=
      List.nodup_cons.mp (by simpa using hnd)
    by_cases he : earnedByCriteria lc a.criteria = true
    · have hp' : hasPair u a.id db.user_achievements = false :=
        habs a (List.mem_cons_self a rest)
      have habs' : ∀ b ∈ rest,
          hasPair u b.id (db.user_achievements ++ [mkUserAchievement u a.id now]) = false := by
        intro b hb
        have h1 : hasPair u b.id db.user_achievements = false :=
          habs b (List.mem_cons_of_mem a hb)
        have h2 : ¬(a.id = b.id) := by
          intro hcontra
          exact hnd0.1 (hcontra ▸ List.mem_map_of_mem (·.id) hb)
        have hsingle : hasPair u b.id [mkUserAchievement u a.id now] = false := by
          simp [hasPair, mkUserAchievement, h2]
        rw [hasPair_append, h1, hsingle]
        rfl
      have hrec := ih { db with
          user_achievements := db.user_achievements ++ [mkUserAchievement u a.id now],
          users := incUserPoints u a.points_reward db.users } hnd0.2 habs'
      simp only [awardLoop, he, hp', if_true, Bool.false_eq_true, if_false]
      rw [hrec]
      have hef : earnedFilter lc (a :: rest) = a :: earnedFilter lc rest := by
        simp [earnedFilter, List.filter_cons_of_pos, he]
      rw [hef]
      simp [sumRewards, incUserPoints_incUserPoints]
    · have he' : earnedByCriteria lc a.criteria = false := by simpa using he
      have hef : earnedFilter lc (a :: rest) = earnedFilter lc rest := by
        simp [earnedFilter, List.filter_cons_of_neg, he']
      simp only [awardLoop, he', Bool.false_eq_true, if_false]
      rw [ih db hnd0.2 (fun b hb => habs b (List.mem_cons_of_mem a hb)), hef]

theorem awardLoop_not_earned_not_granted (u aid : String) (lc now : Nat) :
    ∀ (cands : List Achievement) (db : DB),
      (∀ c ∈ cands, c.id = aid → earnedByCriteria lc c.criteria = false) →
      hasPair u aid db.user_achievements = false →
      hasPair u aid (awardLoop u lc now cands db).1.user_achievements = false := by
  intro cands
  induction cands with
  | nil => intro db _ h; simpa [awardLoop] using h
  | cons a rest ih =>
    intro db hns habs
    simp only [awardLoop]
    by_cases he : earnedByCriteria lc a.criteria = true
    · by_cases hp : hasPair u a.id db.user_achievements = true
      · simpa [he, hp] using habs
      · have hp' : hasPair u a.id db.user_achievements = false := by simpa using hp
        simp only [he, hp', if_true, Bool.false_eq_true, if_false]
        apply ih
        · intro c hc hcid
          exact hns c (List.mem_cons_of_mem a hc) hcid
        · have hneq : ¬(a.id = aid) := by
            intro hcontra
            have h0 := hns a (List.mem_cons_self a rest) hcontra
            rw [h0] at he
            cases he
          have hsingle : hasPair u aid [mkUserAchievement u a.id now] = false := by
            simp [hasPair, mkUserAchievement, hneq]
          rw [hasPair_append, habs, hsingle]
          rfl
    · have he' : earnedByCriteria lc a.criteria = false := by simpa using he
      simp only [he', Bool.false_eq_true, if_false]
      exact ih db (fun c hc h => hns c (List.mem_cons_of_mem a hc) h) habs

theorem start_lesson_frame (u l : String) (n : Nat) (db : DB) :
    (start_lesson u l n db).1.users = db.users ∧
    (start_lesson u l n db).1.lessons = db.lessons ∧
    (start_lesson u l n db).1.achievements = db.achievements ∧
    (start_lesson u l n db).1.user_achievements = db.user_achievements := by
  unfold start_lesson
  rcases hf : db.lessons.find? (fun x => x.id == l) with _ | lesson <;> simp only [hf]
  · simp
  · rcases hp : db.lesson_progress.find? (fun p => p.user_id == u && p.lesson_id == l)
      with _ | p <;> simp [hp]

theorem start_quiz_attempt_frame (u q f : String) (n : Nat) (db : DB) :
    (start_quiz_attempt u q f n db).1.users = db.users ∧
    (start_quiz_attempt u q f n db).1.lessons = db.lessons ∧
    (start_quiz_attempt u q f n db).1.achievements = db.achievements ∧
    (start_quiz_attempt u q f n db).1.user_achievements = db.user_achievements ∧
    (start_quiz_attempt u q f n db).1.quizzes = db.quizzes := by
  unfold start_quiz_attempt
  rcases hf : db.quizzes.find? (fun x => x.id == q) with _ | quiz <;> simp [hf]

theorem check_achievements_user_achievements (u : String) (n : Nat) (db : DB) :
    (check_achievements u n db).1.user_achievements =
      db.user_achievements ++
        ((check_achievements u n db).2.2).map (fun aid => mkUserAchievement u aid n) := by
  simpa [check_achievements] using
    awardLoop_user_achievements u (lessonsCompletedCount u db) n (availableAchievements u db) db

theorem check_achievements_frame (u : String) (n : Nat) (db : DB) :
    (check_achievements u n db).1.lessons = db.lessons ∧
    (check_achievements u n db).1.achievements = db.achievements ∧
    (check_achievements u n db).1.lesson_progress = db.lesson_progress ∧
    (check_achievements u n db).1.quizzes = db.quizzes ∧
    (check_achievements u n db).1.quiz_attempts = db.quiz_attempts := by
  simpa [check_achievements] using
    awardLoop_frame u (lessonsCompletedCount u db) n (availableAchievements u db) db

theorem check_achievements_pairCount_le (u : String) (n : Nat) (db : DB)
    (h : ∀ x y, pairCount x y db.user_achievements ≤ 1) :
    ∀ x y, pairCount x y (check_achievements u n db).1.user_achievements ≤ 1 := by
  simpa [check_achievements] using
    awardLoop_pairCount_le u (lessonsCompletedCount u db) n (availableAchievements u db) db h

theorem check_achievements_points_le (u : String) (n : Nat) (db : DB)
    (hA : ∀ a ∈ db.achievements, 0 ≤ a.points_reward) (x : String) :
    pointsOf x db.users ≤ pointsOf x (check_achievements u n db).1.users := by
  simpa [check_achievements] using
    awardLoop_points_le u (lessonsCompletedCount u db) n (availableAchievements u db) db
      (fun b hb => hA b (List.mem_filter.mp hb).1) x

theorem complete_lesson_user_achievements (u l : String) (n : Nat) (db : DB) :
    (complete_lesson u l n db).1.user_achievements =
      db.user_achievements ++
        ((complete_lesson u l n db).2.2).map (fun aid => mkUserAchievement u aid n) := by
  unfold complete_lesson
  rcases hf : db.lessons.find? (fun x => x.id == l) with _ | lesson <;> simp only [hf]
  · simp
  · split
    · exact check_achievements_user_achievements u n _
    · simp

theorem complete_lesson_frame (u l : String) (n : Nat) (db : DB) :
    (complete_lesson u l n db).1.lessons = db.lessons ∧
    (complete_lesson u l n db).1.achievements = db.achievements ∧
    (complete_lesson u l n db).1.quizzes = db.quizzes ∧
    (complete_lesson u l n db).1.quiz_attempts = db.quiz_attempts := by
  unfold complete_lesson
  rcases hf : db.lessons.find? (fun x => x.id == l) with _ | lesson <;> simp only [hf]
  · simp
  · split
    · obtain ⟨h1, h2, _, h4, h5⟩ := check_achievements_frame u n
        { db with lesson_progress := (updateProgressSetCompleted u l n db.lesson_progress).1,
                  users := incUserPoints u lesson.points_reward db.users }
      exact ⟨h1, h2, h4, h5⟩
    · simp

theorem complete_lesson_pairCount_le (u l : String) (n : Nat) (db : DB)
    (h : ∀ x y, pairCount x y db.user_achievements ≤ 1) :
    ∀ x y, pairCount x y (complete_lesson u l n db).1.user_achievements ≤ 1 := by
  unfold complete_lesson
  rcases hf : db.lessons.find? (fun x => x.id == l) with _ | lesson <;> simp only [hf]
  · simpa using h
  · split
    · exact check_achievements_pairCount_le u n _ h
    · simpa using h

theorem complete_lesson_points_le (u l : String) (n : Nat) (db : DB)
    (hL : ∀ a ∈ db.lessons, 0 ≤ a.points_reward)
    (hA : ∀ a ∈ db.achievements, 0 ≤ a.points_reward) (x : String) :
    pointsOf x db.users ≤ pointsOf x (complete_lesson u l n db).1.users := by
  unfold complete_lesson
  rcases hf : db.lessons.find? (fun x => x.id == l) with _ | lesson <;> simp only [hf]
  · simp
  · have hmem : lesson ∈ db.lessons := List.mem_of_find?_eq_some hf
    split
    · refine le_trans (pointsOf_incUserPoints_le x u lesson.points_reward (hL lesson hmem) _) ?_
      exact check_achievements_points_le u n
        { db with lesson_progress := (updateProgressSetCompleted u l n db.lesson_progress).1,
                  users := incUserPoints u lesson.points_reward db.users } hA x
    · simp

theorem grantCount_append (x y : String) (l l' : List (String × String)) :
    grantCount x y (l ++ l') = grantCount x y l + grantCount x y l' := by
  simp [grantCount, List.filter_append]

theorem pairCount_map_mk (x y u : String) (n : Nat) :
    ∀ g : List String,
      pairCount x y (g.map (fun aid => mkUserAchievement u aid n)) =
        grantCount x y (g.map (fun aid => (u, aid))) := by
  intro g
  induction g with
  | nil => rfl
  | cons a t ih =>
    simp only [List.map_cons, pairCount, grantCount, List.filter_cons] at *
    by_cases hc : ((u == x) && (a == y)) = true
    · simp [mkUserAchievement, hc] at *
      omega
    · simp [mkUserAchievement, hc] at *
      exact ih

theorem applyOp_pairCount (op : Op) (db : DB) (x y : String) :
    pairCount x y (applyOp op db).user_achievements =
      pairCount x y db.user_achievements + grantCount x y (opGrants op db) := by
  cases op with
  | startLesson u l n =>
    simp [applyOp, opGrants, grantCount, (start_lesson_frame u l n db).2.2.2]
  | completeLesson u l n =>
    simp only [applyOp, opGrants]
    rw [complete_lesson_user_achievements, pairCount_append, pairCount_map_mk]
  | startQuizAttempt u q f n =>
    simp [applyOp, opGrants, grantCount, (start_quiz_attempt_frame u q f n db).2.2.2.1]

theorem applyOp_pairCount_le (op : Op) (db : DB)
    (h : ∀ x y, pairCount x y db.user_achievements ≤ 1) :
    ∀ x y, pairCount x y (applyOp op db).user_achievements ≤ 1 := by
  cases op with
  | startLesson u l n =>
    simpa [applyOp, (start_lesson_frame u l n db).2.2.2] using h
  | completeLesson u l n =>
    simpa [applyOp] using complete_lesson_pairCount_le u l n db h
  | startQuizAttempt u q f n =>
    simpa [applyOp, (start_quiz_attempt_frame u q f n db).2.2.2.1] using h

theorem applyOp_lessons_achievements (op : Op) (db : DB) :
    (applyOp op db).lessons = db.lessons ∧ (applyOp op db).achievements = db.achievements := by
  cases op with
  | startLesson u l n =>
    exact ⟨(start_lesson_frame u l n db).2.1, (start_lesson_frame u l n db).2.2.1⟩
  | completeLesson u l n =>
    exact ⟨(complete_lesson_frame u l n db).1, (complete_lesson_frame u l n db).2.1⟩
  | startQuizAttempt u q f n =>
    exact ⟨(start_quiz_attempt_frame u q f n db).2.1, (start_quiz_attempt_frame u q f n db).2.2.1⟩

theorem applyOp_points_le (op : Op) (db : DB)
    (hL : ∀ a ∈ db.lessons, 0 ≤ a.points_reward)
    (hA : ∀ a ∈ db.achievements, 0 ≤ a.points_reward) (x : String) :
    pointsOf x db.users ≤ pointsOf x (applyOp op db).users := by
  cases op with
  | startLesson u l n => simp [applyOp, (start_lesson_frame u l n db).1]
  | completeLesson u l n => simpa [applyOp] using complete_lesson_points_le u l n db hL hA x
  | startQuizAttempt u q f n => simp [applyOp, (start_quiz_attempt_frame u q f n db).1]

theorem applyOp_user_achievements_suffix (op : Op) (db : DB) :
    ∃ s, (applyOp op db).user_achievements = db.user_achievements ++ s := by
  cases op with
  | startLesson u l n =>
    exact ⟨[], by simp [applyOp, (start_lesson_frame u l n db).2.2.2]⟩
  | completeLesson u l n =>
    exact ⟨_, by simpa [applyOp] using complete_lesson_user_achievements u l n db⟩
  | startQuizAttempt u q f n =>
    exact ⟨[], by simp [applyOp, (start_quiz_attempt_frame u q f n db).2.2.2.1]⟩

theorem applyTrace_fst (ops : List Op) (db : DB) :
    (applyTrace ops db).1 = applyOps ops db := rfl

theorem applyOps_pairCount (ops : List Op) (x y : String) :
    ∀ db : DB,
      pairCount x y (applyOps ops db).user_achievements =
        pairCount x y db.user_achievements + grantCount x y (applyTrace ops db).2 := by
  induction ops with
  | nil => intro db; simp [applyOps, applyTrace, grantCount]
  | cons op rest ih =>
    intro db
    simp only [applyOps, applyTrace, grantCount_append]
    have h1 := ih (applyOp op db)
    simp only [applyOps] at h1
    rw [h1, applyOp_pairCount]
    omega

theorem applyOps_pairCount_le (ops : List Op) :
    ∀ db : DB, (∀ x y, pairCount x y db.user_achievements ≤ 1) →
      ∀ x y, pairCount x y (applyOps ops db).user_achievements ≤ 1 := by
  induction ops with
  | nil => intro db h; simpa [applyOps, applyTrace] using h
  | cons op rest ih =>
    intro db h
    simpa only [applyOps, applyTrace] using ih (applyOp op db) (applyOp_pairCount_le op db h)

theorem applyOps_user_achievements_suffix (ops : List Op) :
    ∀ db : DB, ∃ s, (applyOps ops db).user_achievements = db.user_achievements ++ s := by
  induction ops with
  | nil => intro db; exact ⟨[], by simp [applyOps, applyTrace]⟩
  | cons op rest ih =>
    intro db
    obtain ⟨s1, hs1⟩ := applyOp_user_achievements_suffix op db
    obtain ⟨s2, hs2⟩ := ih (applyOp op db)
    refine ⟨s1 ++ s2, ?_⟩
    simp only [applyOps, applyTrace] at *
    rw [hs2, hs1, List.append_assoc]

theorem applyOps_points_le (ops : List Op) :
    ∀ db : DB,
      (∀ a ∈ db.lessons, 0 ≤ a.points_reward) →
      (∀ a ∈ db.achievements, 0 ≤ a.points_reward) →
      ∀ x, pointsOf x db.users ≤ pointsOf x (applyOps ops db).users := by
  induction ops with
  | nil => intro db _ _ x; simp [applyOps, applyTrace]
  | cons op rest ih =>
    intro db hL hA x
    refine le_trans (applyOp_points_le op db hL hA x) ?_
    have hfr := applyOp_lessons_achievements op db
    simpa only [applyOps, applyTrace] using
      ih (applyOp op db) (hfr.1 ▸ hL) (hfr.2 ▸ hA) x

/-! ### Claim theorems -/

/-- Concrete state for C1: one learner "u" with 0 points, one lesson "l1"
worth 10 points, no achievements. -/
def lesson_c1 : Lesson := { id := "l1", points_reward := 10 }

/-- C1 initial database. -/
def db_c1 : DB := { DB.empty with users := [{ id := "u", points := 0 }], lessons := [lesson_c1] }

/-- C1: completeLesson is NOT idempotent in the code.  The first call (at
time 1) awards 10 points; the second call (at time 2) matches the existing
record, but the unconditional `$set` rewrites `completed_at` with the fresh
timestamp, so MongoDB reports `modified_count = 1`, the guard
`result.upserted_id or result.modified_count > 0` fires again, and the
lesson's points are awarded a second time (balance 20, not 10); the stored
progress record also differs between the two calls (`completed_at` 2
vs 1).  The guard fires on a mere touch, not only on a real
not-completed → completed transition. -/
theorem complete_lesson_second_call_double_awards :
    pointsOf "u" ((complete_lesson "u" "l1" 1 db_c1).1).users = 10 ∧
    pointsOf "u" ((complete_lesson "u" "l1" 2 (complete_lesson "u" "l1" 1 db_c1).1).1).users = 20 ∧
    (complete_lesson "u" "l1" 2 (complete_lesson "u" "l1" 1 db_c1).1).1.lesson_progress ≠
      (complete_lesson "u" "l1" 1 db_c1).1.lesson_progress := by
  decide

/-- Concrete question for C6, with a non-empty correct answer. -/
def question_c6 : QuizQuestion :=
  { question := "what", question_type := .multiple_choice, correct_answer := "42", points := 1 }

/-- Concrete quiz for C6. -/
def quiz_c6 : Quiz :=
  { id := "q1", lesson_id := "l1", questions := [question_c6], passing_score := 70,
    is_active := true, max_points := 1 }

/-- C6 initial database. -/
def db_c6 : DB := { DB.empty with quizzes := [quiz_c6] }

/-- C6: starting an attempt returns only the bare QuizAttempt — the
endpoint's response carries no question set at all, redacted or otherwise:
the redacted copy quiz_for_student is built (redactQuiz blanks every
correct_answer) and then discarded.  The stored Quiz document is unchanged
and still carries its non-empty correct answers. -/
theorem start_quiz_attempt_returns_attempt_not_questions :
    (start_quiz_attempt "u" "q1" "a1" 5 db_c6).2 =
      Except.ok { id := "a1", user_id := "u", quiz_id := "q1", answers := [], score := 0,
                  max_score := 1, started_at := 5, completed_at := none,
                  is_completed := false } ∧
    (start_quiz_attempt "u" "q1" "a1" 5 db_c6).1.quizzes = db_c6.quizzes ∧
    ((redactQuiz quiz_c6).questions.all fun qq => qq.correct_answer == "") = true ∧
    (quiz_c6.questions.all fun qq => qq.correct_answer == "") = false :=
  ⟨rfl, rfl, by decide, by decide⟩

/-- C9: start_quiz_attempt never enforces a single in-flight attempt.
Whenever the quiz exists, every call succeeds and unconditionally appends a
brand-new attempt record (fresh id, empty answers, score 0.0, not
completed, max_score copied from the quiz's current max_points), with no
condition whatsoever on existing attempts; when the quiz id does not
exist the only outcome is a NotFound failure with the state unchanged. -/
theorem start_quiz_attempt_always_inserts :
    ∀ (uid qid freshId : String) (now : Nat) (db : DB),
      (∀ quiz, db.quizzes.find? (fun q => q.id == qid) = some quiz →
        start_quiz_attempt uid qid freshId now db =
          ({ db with quiz_attempts := db.quiz_attempts ++
              [{ id := freshId, user_id := uid, quiz_id := qid, answers := [], score := 0,
                 max_score := (quiz.max_points : Rat), started_at := now,
                 completed_at := none, is_completed := false }] },
           Except.ok { id := freshId, user_id := uid, quiz_id := qid, answers := [],
                       score := 0, max_score := (quiz.max_points : Rat), started_at := now,
                       completed_at := none, is_completed := false })) ∧
      (db.quizzes.find? (fun q => q.id == qid) = none →
        start_quiz_attempt uid qid freshId now db = (db, Except.error Err.notFound)) := by
  intro uid qid freshId now db
  constructor
  · intro quiz hq
    simp [start_quiz_attempt, hq]
  · intro hq
    simp [start_quiz_attempt, hq]

/-- Concrete quiz for the C9 witness. -/
def quiz_c9 : Quiz :=
  { id := "q9", lesson_id := "l9", questions := [], passing_score := 70,
    is_active := true, max_points := 7 }

/-- C9 witness database: one uncompleted attempt already in flight. -/
def db_c9 : DB :=
  { DB.empty with
    quizzes := [quiz_c9],
    quiz_attempts := [{ id := "old", user_id := "u", quiz_id := "q9", answers := [],
                        score := 0, max_score := 7, started_at := 0, completed_at := none,
                        is_completed := false }] }

/-- C9 witness: even with an uncompleted attempt in flight,
start_quiz_attempt succeeds and appends a second attempt. -/
theorem start_quiz_attempt_always_inserts_witness :
    db_c9.quizzes.find? (fun q => q.id == "q9") = some quiz_c9 ∧
    start_quiz_attempt "u" "q9" "a9" 3 db_c9 =
      ({ db_c9 with quiz_attempts := db_c9.quiz_attempts ++
          [{ id := "a9", user_id := "u", quiz_id := "q9", answers := [], score := 0,
             max_score := (quiz_c9.max_points : Rat), started_at := 3,
             completed_at := none, is_completed := false }] },
       Except.ok { id := "a9", user_id := "u", quiz_id := "q9", answers := [],
                   score := 0, max_score := (quiz_c9.max_points : Rat), started_at := 3,
                   completed_at := none, is_completed := false }) :=
  ⟨by decide, (start_quiz_attempt_always_inserts "u" "q9" "a9" 3 db_c9).1 quiz_c9 (by decide)⟩

/-- C4 achievements: two distinct achievement documents that share the id
"X4" (no unique index exists on the achievements collection), plus a third
qualifying achievement "Y4" that is evaluated after them. -/
def achievement_c4a : Achievement :=
  { id := "X4", points_reward := 5, criteria := [("lessons_completed", 1)], is_active := true }

/-- C4: second document with the duplicate id. -/
def achievement_c4b : Achievement :=
  { id := "X4", points_reward := 7, criteria := [("lessons_completed", 1)], is_active := true }

/-- C4: the later qualifying candidate that the aborted pass never reaches. -/
def achievement_c4c : Achievement :=
  { id := "Y4", points_reward := 3, criteria := [("lessons_completed", 1)], is_active := true }

/-- C4 lesson. -/
def lesson_c4 : Lesson := { id := "l4", points_reward := 2 }

/-- C4 initial database. -/
def db_c4 : DB :=
  { DB.empty with
    users := [{ id := "u", points := 0 }],
    lessons := [lesson_c4],
    achievements := [achievement_c4a, achievement_c4b, achievement_c4c] }

/-- C4 counterexample: completing lesson "l4" makes all three achievements
candidates; awarding the first "X4" succeeds, awarding the duplicate "X4"
hits the unique (user_id, achievement_id) index, and — there being no
try/except in check_achievements — the storage conflict is surfaced as the
failure of the triggering lesson completion (not swallowed into a no-op
success) and the remaining qualifying candidate "Y4" is never evaluated,
so the pass is aborted, contradicting the claim. -/
theorem award_conflict_not_swallowed_cex :
    (complete_lesson "u" "l4" 1 db_c4).2.1 = some Err.storageConflict ∧
    earnedByCriteria (lessonsCompletedCount "u" (complete_lesson "u" "l4" 1 db_c4).1)
      achievement_c4c.criteria = true ∧
    hasPair "u" "Y4" (complete_lesson "u" "l4" 1 db_c4).1.user_achievements = false := by
  decide

/-- C4 amended: what the code actually does — when the award loop reaches a
candidate that is earned but whose (user, achievement id) record already
exists, the insert's duplicate-key error propagates immediately: the
result is the storageConflict error with the state unchanged from that
point and no grants recorded, for every list of remaining candidates
(i.e., the rest of the pass is aborted and the conflict is surfaced to the
caller as the failure of the triggering operation rather than being
swallowed). -/
theorem award_conflict_aborts_pass (u : String) (lc now : Nat)
    (a : Achievement) (rest : List Achievement) (db : DB)
    (he : earnedByCriteria lc a.criteria = true)
    (hp : hasPair u a.id db.user_achievements = true) :
    awardLoop u lc now (a :: rest) db = (db, some Err.storageConflict, []) := by
  simp [awardLoop, he, hp]

/-- C4 witness database: the pair (u, X4) is already recorded. -/
def db_c4w : DB :=
  { DB.empty with
    users := [{ id := "u", points := 5 }],
    user_achievements := [mkUserAchievement "u" "X4" 0] }

/-- C4 witness: the amended theorem at a concrete input. -/
theorem award_conflict_aborts_pass_witness :
    awardLoop "u" 1 2 [achievement_c4b, achievement_c4c] db_c4w =
      (db_c4w, some Err.storageConflict, []) :=
  award_conflict_aborts_pass "u" 1 2 achievement_c4b [achievement_c4c] db_c4w
    (by decide) (by decide)

/-- C7 achievement: a descriptor mixing the known lessons_completed metric
with the unknown metric streak_days. -/
def achievement_c7 : Achievement :=
  { id := "A7", points_reward := 10,
    criteria := [("lessons_completed", 1), ("streak_days", 7)], is_active := true }

/-- C7 progress record: one completed lesson. -/
def progress_c7 : LessonProgress :=
  { user_id := "u", lesson_id := "l1", started_at := none, completed_at := some 0,
    is_completed := true }

/-- C7 initial database. -/
def db_c7 : DB :=
  { DB.empty with
    users := [{ id := "u", points := 0 }],
    lesson_progress := [progress_c7],
    achievements := [achievement_c7] }

/-- C7 counterexample: the claim says an achievement whose descriptor
contains a metric name the evaluator does not know is treated as not
satisfied and skipped.  In the code, the unknown metric streak_days is
simply ignored: with the lessons_completed criterion satisfied the
achievement IS granted (record inserted, 10 points credited) even though
its descriptor contains an unknown metric. -/
theorem unknown_metric_achievement_still_granted_cex :
    (achievement_c7.criteria.lookup "streak_days").isSome = true ∧
    hasPair "u" "A7" (check_achievements "u" 3 db_c7).1.user_achievements = true ∧
    pointsOf "u" (check_achievements "u" 3 db_c7).1.users = 10 := by
  decide

/-- C7 amended: unknown metric names never crash the pass (the evaluator is
total) and are ignored rather than blocking; an achievement whose
descriptor contains no lessons_completed key at all — only metrics the
evaluator does not know — is treated as not satisfied and is never granted
by a pass, so it stays absent from the learner's records and remains a
candidate for future passes.  (The side condition quantifies over every
achievement document carrying that id, since ids are not unique at the
storage layer.) -/
theorem unknown_only_criteria_never_granted :
    (∀ (lc : Nat) (criteria : List (String × Int)),
        criteria.lookup "lessons_completed" = none → earnedByCriteria lc criteria = false) ∧
    (∀ (u aid : String) (now : Nat) (db : DB),
        (∀ b ∈ db.achievements, b.id = aid → b.criteria.lookup "lessons_completed" = none) →
        hasPair u aid db.user_achievements = false →
        hasPair u aid (check_achievements u now db).1.user_achievements = false) := by
  constructor
  · intro lc criteria h
    simp [earnedByCriteria, h]
  · intro u aid now db hcrit habs
    have hns : ∀ c ∈ availableAchievements u db, c.id = aid →
        earnedByCriteria (lessonsCompletedCount u db) c.criteria = false := by
      intro c hc hcid
      have hmem : c ∈ db.achievements := (List.mem_filter.mp hc).1
      simp [earnedByCriteria, hcrit c hmem hcid]
    simpa [check_achievements] using
      awardLoop_not_earned_not_granted u aid (lessonsCompletedCount u db) now
        (availableAchievements u db) db hns habs

/-- C7 witness achievement: only the unknown metric streak_days. -/
def achievement_c7w : Achievement :=
  { id := "A7w", points_reward := 10, criteria := [("streak_days", 7)], is_active := true }

/-- C7 witness database. -/
def db_c7w : DB :=
  { DB.empty with
    users := [{ id := "u", points := 0 }],
    lesson_progress := [progress_c7],
    achievements := [achievement_c7w] }

/-- C7 witness: the amended theorem at a concrete input — the
streak_days-only achievement is evaluated without error and not granted. -/
theorem unknown_only_criteria_never_granted_witness :
    earnedByCriteria 1 achievement_c7w.criteria = false ∧
    hasPair "u" "A7w" (check_achievements "u" 3 db_c7w).1.user_achievements = false :=
  ⟨unknown_only_criteria_never_granted.1 1 achievement_c7w.criteria (by decide),
   unknown_only_criteria_never_granted.2 "u" "A7w" 3 db_c7w (by decide) (by decide)⟩

/-- C8: two distinct achievement documents sharing the id "X8". -/
def achievement_c8a : Achievement :=
  { id := "X8", points_reward := 5, criteria := [("lessons_completed", 1)], is_active := true }

/-- C8: the other document with the duplicate id and a different reward. -/
def achievement_c8b : Achievement :=
  { id := "X8", points_reward := 7, criteria := [("lessons_completed", 1)], is_active := true }

/-- C8 progress record: one completed lesson. -/
def progress_c8 : LessonProgress :=
  { user_id := "u", lesson_id := "l8", started_at := some 0, completed_at := some 0,
    is_completed := true }

/-- C8 database, candidates in one order. -/
def db_c8A : DB :=
  { DB.empty with
    users := [{ id := "u", points := 0 }],
    lesson_progress := [progress_c8],
    achievements := [achievement_c8a, achievement_c8b] }

/-- C8 database, the same candidate set in the opposite order. -/
def db_c8B : DB := { db_c8A with achievements := [achievement_c8b, achievement_c8a] }

/-- C8 counterexample: the two databases hold the same learner state and
the same set (a permutation) of candidate achievements, yet running the
achievement pass leaves different final point balances (5 vs 7): with two
qualifying documents sharing one id, whichever is evaluated first is
granted, the second aborts the pass with a storage conflict, and the
reward credited depends on the order.  The pass is therefore not
order-independent as claimed. -/
theorem achievement_pass_order_dependent_cex :
    db_c8B.achievements.Perm db_c8A.achievements ∧
    db_c8B.users = db_c8A.users ∧
    db_c8B.user_achievements = db_c8A.user_achievements ∧
    db_c8B.lesson_progress = db_c8A.lesson_progress ∧
    pointsOf "u" (check_achievements "u" 0 db_c8A).1.users ≠
      pointsOf "u" (check_achievements "u" 0 db_c8B).1.users := by
  decide

/-- C8 amended: the pass over a candidate list IS order-independent
whenever the candidates' achievement ids are pairwise distinct and none of
them is already recorded for the learner (both hold for the candidate list
check_achievements computes when the achievements collection has no
duplicate ids, since candidates are filtered by the learner's earned
ids).  Under those hypotheses any permutation of the candidates yields no
error, the identical final users list (hence the same point balance), a
permutation of the same final user_achievements records, and a
permutation of the same granted ids. -/
theorem achievement_pass_order_independent_nodup (u : String) (lc now : Nat)
    (cands cands' : List Achievement) (db : DB)
    (hperm : cands.Perm cands')
    (hnd : (cands.map (·.id)).Nodup)
    (habs : ∀ a ∈ cands, hasPair u a.id db.user_achievements = false) :
    (awardLoop u lc now cands db).2.1 = none ∧
    (awardLoop u lc now cands' db).2.1 = none ∧
    (awardLoop u lc now cands db).1.users = (awardLoop u lc now cands' db).1.users ∧
    (awardLoop u lc now cands db).1.user_achievements.Perm
      (awardLoop u lc now cands' db).1.user_achievements ∧
    (awardLoop u lc now cands db).2.2.Perm (awardLoop u lc now cands' db).2.2 := by
  have hnd' : (cands'.map (·.id)).Nodup := ((hperm.map (·.id)).nodup_iff).mp hnd
  have habs' : ∀ a ∈ cands', hasPair u a.id db.user_achievements = false :=
    fun a ha => habs a (hperm.mem_iff.mpr ha)
  have h1 := awardLoop_no_conflict u lc now cands db hnd habs
  have h2 := awardLoop_no_conflict u lc now cands' db hnd' habs'
  have hef : (earnedFilter lc cands).Perm (earnedFilter lc cands') := by
    unfold earnedFilter
    exact hperm.filter _
  rw [h1, h2]
  refine ⟨rfl, rfl, ?_, ?_, ?_⟩
  · have hsum : sumRewards (earnedFilter lc cands) = sumRewards (earnedFilter lc cands') := by
      unfold sumRewards
      exact List.Perm.sum_eq (hef.map _)
    simp only [hsum]
  · exact List.Perm.append_left _ (hef.map _)
  · exact hef.map _

/-- C8 witness: two candidates with distinct ids "W1" (earned) and "W2"
(not yet earned). -/
def achievement_c8w1 : Achievement :=
  { id := "W1", points_reward := 5, criteria := [("lessons_completed", 0)], is_active := true }

/-- C8 witness second candidate. -/
def achievement_c8w2 : Achievement :=
  { id := "W2", points_reward := 7, criteria := [("lessons_completed", 9)], is_active := true }

/-- C8 witness database. -/
def db_c8w : DB := { DB.empty with users := [{ id := "u", points := 0 }] }

/-- C8 witness: the amended theorem at a concrete input. -/
theorem achievement_pass_order_independent_nodup_witness :
    ([achievement_c8w1, achievement_c8w2].Perm [achievement_c8w2, achievement_c8w1]) ∧
    (([achievement_c8w1, achievement_c8w2].map (fun a => a.id)).Nodup) ∧
    (awardLoop "u" 0 1 [achievement_c8w1, achievement_c8w2] db_c8w).1.users =
      (awardLoop "u" 0 1 [achievement_c8w2, achievement_c8w1] db_c8w).1.users :=
  ⟨by decide, by decide,
   (achievement_pass_order_independent_nodup "u" 0 1
      [achievement_c8w1, achievement_c8w2] [achievement_c8w2, achievement_c8w1] db_c8w
      (by decide) (by decide) (by decide)).2.2.1⟩

/-- C3 criteria descriptor combining a satisfied lessons_completed
criterion with an unsatisfied quizzes_completed criterion. -/
def criteria_c3 : List (String × Int) := [("lessons_completed", 1), ("quizzes_completed", 5)]

/-- C3 achievement carrying that descriptor. -/
def achievement_c3 : Achievement :=
  { id := "A3", points_reward := 10, criteria := criteria_c3, is_active := true }

/-- C3 progress record: one completed lesson. -/
def progress_c3 : LessonProgress :=
  { user_id := "u", lesson_id := "l1", started_at := none, completed_at := some 0,
    is_completed := true }

/-- C3 initial database: stats are lessons_completed = 1,
quizzes_completed = 0. -/
def db_c3 : DB :=
  { DB.empty with
    users := [{ id := "u", points := 0 }],
    lesson_progress := [progress_c3],
    achievements := [achievement_c3] }

/-- C3 counterexample: the evaluator is NOT a conjunction over all listed
metrics.  With stats lessons_completed = 1 and quizzes_completed = 0, the
spec's conjunction evaluator rejects the descriptor (the
quizzes_completed ≥ 5 criterion fails), but the code's earned decision is
true — it consults only lessons_completed — and the evaluation pass does
grant the achievement. -/
theorem criteria_eval_not_conjunction_cex :
    earnedByCriteria 1 criteria_c3 = true ∧
    specCriteriaEval criteria_c3 (statsList 1 0) = false ∧
    hasPair "u" "A3" (check_achievements "u" 7 db_c3).1.user_achievements = true := by
  decide

/-- C3 amended: the code judges an achievement earned iff its descriptor
contains the lessons_completed metric and the learner's completed-lesson
count meets that threshold; every other metric in the descriptor is
ignored.  On descriptors consisting of exactly one lessons_completed
criterion the code agrees with the spec's conjunction evaluator, and in
particular a lessons_completed: 5 achievement is not earned at 4 completed
lessons and is earned at 5. -/
theorem criteria_eval_lessons_completed_only :
    (∀ (lc : Nat) (criteria : List (String × Int)),
        earnedByCriteria lc criteria = true ↔
          ∃ t, criteria.lookup "lessons_completed" = some t ∧ t ≤ (lc : Int)) ∧
    (∀ (lc qc : Nat) (t : Int),
        earnedByCriteria lc [("lessons_completed", t)] =
          specCriteriaEval [("lessons_completed", t)] (statsList lc qc)) ∧
    earnedByCriteria 4 [("lessons_completed", 5)] = false ∧
    earnedByCriteria 5 [("lessons_completed", 5)] = true := by
  refine ⟨?_, ?_, by decide, by decide⟩
  · intro lc criteria
    unfold earnedByCriteria
    rcases h : criteria.lookup "lessons_completed" with _ | t <;> simp [h]
  · intro lc qc t
    simp [earnedByCriteria, specCriteriaEval, statsList, List.lookup]

/-- C2: at-most-once achievement award.  Starting from any database whose
user_achievements collection respects the unique (user_id, achievement_id)
index (at most one record per pair — the state the storage layer
guarantees), across ANY sequence of engine events: (a) the final state
still holds at most one record for every (learner, achievement) pair;
(b) the whole trace's grant log — and each grant performs exactly one
point increment of that achievement's reward, by construction of the award
loop — contains the pair at most once, so the reward is credited at most
once; and (c) records are only ever appended, never removed, so the bound
covers every record that ever existed. -/
theorem achievement_award_at_most_once (ops : List Op) (db0 : DB) (uid aid : String)
    (h : ∀ x y, pairCount x y db0.user_achievements ≤ 1) :
    pairCount uid aid (applyOps ops db0).user_achievements ≤ 1 ∧
    grantCount uid aid (applyTrace ops db0).2 ≤ 1 ∧
    ∃ s, (applyOps ops db0).user_achievements = db0.user_achievements ++ s := by
  refine ⟨applyOps_pairCount_le ops db0 h uid aid, ?_,
    applyOps_user_achievements_suffix ops db0⟩
  have heq := applyOps_pairCount ops uid aid db0
  have hle := applyOps_pairCount_le ops db0 h uid aid
  omega

/-- C2 witness lesson. -/
def lesson_c2 : Lesson := { id := "l2", points_reward := 1 }

/-- C2 witness achievement: earned on the first completed lesson. -/
def achievement_c2 : Achievement :=
  { id := "A2", points_reward := 50, criteria := [("lessons_completed", 1)], is_active := true }

/-- C2 witness database. -/
def db_c2 : DB :=
  { DB.empty with
    users := [{ id := "u", points := 0 }],
    lessons := [lesson_c2],
    achievements := [achievement_c2] }

/-- C2 witness trace: the same lesson completed twice (which, per C1,
re-runs the achievement pass) plus an unrelated event. -/
def ops_c2 : List Op :=
  [Op.completeLesson "u" "l2" 1, Op.completeLesson "u" "l2" 2, Op.startLesson "u" "l2" 3]

/-- C2 witness: the theorem at a concrete input — even though the trace
triggers the achievement pass twice, A2 is recorded and granted at most
once. -/
theorem achievement_award_at_most_once_witness :
    pairCount "u" "A2" (applyOps ops_c2 db_c2).user_achievements ≤ 1 ∧
    grantCount "u" "A2" (applyTrace ops_c2 db_c2).2 ≤ 1 := by
  have h := achievement_award_at_most_once ops_c2 db_c2 "u" "A2"
    (fun x y => by simp [db_c2, DB.empty, pairCount])
  exact ⟨h.1, h.2.1⟩

/-- C10: point balances are monotonically non-decreasing.  If every
lesson's and every achievement's points_reward in the starting state is
non-negative, then across any sequence of engine events no learner's point
balance ever decreases — the only writes to the points field are the two
$inc updates inside complete_lesson and check_achievements, each by such a
configured reward. -/
theorem points_monotone (ops : List Op) (db : DB)
    (hL : ∀ l ∈ db.lessons, 0 ≤ l.points_reward)
    (hA : ∀ a ∈ db.achievements, 0 ≤ a.points_reward) (uid : String) :
    pointsOf uid db.users ≤ pointsOf uid (applyOps ops db).users :=
  applyOps_points_le ops db hL hA uid

/-- C10 witness: the theorem at a concrete input (the same trace and
database as the C2 witness has only non-negative rewards). -/
theorem points_monotone_witness :
    pointsOf "u" db_c2.users ≤ pointsOf "u" (applyOps ops_c2 db_c2).users :=
  points_monotone ops_c2 db_c2 (by decide) (by decide) "u"

theorem scoreQuizAux_eq (ans : Nat → Option String) :
    ∀ (qs : List QuizQuestion) (i : Nat),
      scoreQuizAux ans i qs =
        ((((List.enumFrom i qs).filter (fun p => answerMatches p.2 (ans p.1))).map
            (fun p => p.2.points)).sum,
         (qs.map (·.points)).sum) := by
  intro qs
  induction qs with
  | nil => intro i; rfl
  | cons q rest ih =>
    intro i
    simp only [scoreQuizAux, ih (i + 1), List.enumFrom, List.filter_cons, List.map_cons]
    by_cases hm : answerMatches q (ans i) = true
    · simp [hm]
    · simp [hm]

/-- C5 (spec-modelled: no scorer exists in the source).  The Quiz Scorer
returns maxScore equal to the sum of all question points, score equal to
the sum of the points of exactly the questions whose type-aware comparison
succeeds; when maxScore is nonzero, passed holds iff
score / maxScore * 100 meets the quiz's passing_score over the rationals
and the degenerate flag is off; when maxScore is zero the scorer does not
divide: passed is false and the degenerate-quiz condition is reported. -/
theorem quiz_scorer_spec :
    (∀ (qs : List QuizQuestion) (ans : Nat → Option String) (ps : Nat),
        (scoreQuiz qs ans ps).maxScore = (qs.map (·.points)).sum ∧
        (scoreQuiz qs ans ps).score =
          (((qs.enum).filter (fun p => answerMatches p.2 (ans p.1))).map
            (fun p => p.2.points)).sum) ∧
    (∀ (qs : List QuizQuestion) (ans : Nat → Option String) (ps : Nat),
        (qs.map (·.points)).sum ≠ 0 →
          (scoreQuiz qs ans ps).degenerate = false ∧
          ((scoreQuiz qs ans ps).passed = true ↔
            (ps : ℚ) ≤ ((scoreQuiz qs ans ps).score : ℚ) /
              ((scoreQuiz qs ans ps).maxScore : ℚ) * 100)) ∧
    (∀ (qs : List QuizQuestion) (ans : Nat → Option String) (ps : Nat),
        (qs.map (·.points)).sum = 0 →
          (scoreQuiz qs ans ps).passed = false ∧ (scoreQuiz qs ans ps).degenerate = true) := by
  have hkey : ∀ (qs : List QuizQuestion) (ans : Nat → Option String),
      scoreQuizAux ans 0 qs =
        ((((qs.enum).filter (fun p => answerMatches p.2 (ans p.1))).map
            (fun p => p.2.points)).sum,
         (qs.map (·.points)).sum) := by
    intro qs ans
    simpa [List.enum] using scoreQuizAux_eq ans qs 0
  refine ⟨?_, ?_, ?_⟩
  · intro qs ans ps
    unfold scoreQuiz
    rw [hkey qs ans]
    by_cases h0 : (qs.map (·.points)).sum = 0 <;> simp [h0]
  · intro qs ans ps h0
    unfold scoreQuiz
    rw [hkey qs ans]
    simp [h0]
  · intro qs ans ps h0
    unfold scoreQuiz
    rw [hkey qs ans]
    simp [h0]

/-- C5 witness questions: worth 10, 5 and 15 points. -/
def questions_c5 : List QuizQuestion :=
  [{ question := "a", question_type := .multiple_choice, correct_answer := "A", points := 10 },
   { question := "b", question_type := .true_false, correct_answer := "True", points := 5 },
   { question := "c", question_type := .free_text, correct_answer := "go", points := 15 }]

/-- C5 witness submission: matches questions 1 and 3 only. -/
def answers_c5 : Nat → Option String :=
  fun i => if i = 0 then some "A" else if i = 2 then some " go " else none

/-- C5 witness: the theorem at a concrete input — score 25 of 30, and with
passing_score 70 the pass criterion (25/30*100 = 83.33 ≥ 70) is met. -/
theorem quiz_scorer_spec_witness :
    (questions_c5.map (fun q => q.points)).sum ≠ 0 ∧
    (scoreQuiz questions_c5 answers_c5 70).score = 25 ∧
    (scoreQuiz questions_c5 answers_c5 70).maxScore = 30 ∧
    (scoreQuiz questions_c5 answers_c5 70).degenerate = false ∧
    ((scoreQuiz questions_c5 answers_c5 70).passed = true ↔
      ((70 : Nat) : ℚ) ≤ ((scoreQuiz questions_c5 answers_c5 70).score : ℚ) /
        ((scoreQuiz questions_c5 answers_c5 70).maxScore : ℚ) * 100) := by
  have h := quiz_scorer_spec.2.1 questions_c5 answers_c5 70 (by decide)
  exact ⟨by decide, by decide, by decide, h.1, h.2⟩
